import Mathlib

/-!
Verification development for the local render backend
(src/plantuml/renders/local.ts, class LocalRender).

The TypeScript code is shallowly embedded as follows.

* File-system paths are represented by their parsed components
  (`ParsedPath`, mirroring the records produced by path.parse and
  consumed by path.format); `pathFormat` re-assembles the string.
* External collaborators (configuration provider, localization
  provider, the addFileIndex naming helper, Node path predicates, the
  per-page process-output adapter processWrapper, and the outcome of
  the blocking inkscape invocation) are fields of an `Env` record, so
  every theorem quantifies over their behaviour.
* JavaScript promise semantics: the reduce at local.ts:71 runs
  synchronously, so every per-page engine process is spawned and
  recorded before any then-callback runs; the then-callbacks then run
  strictly sequentially.  The embedding therefore has a synchronous
  launch phase (`launchFold`) followed by a sequential chain phase
  (`runChain`).  The closure variables `format` and `savePath` are
  mutated inside the reduce (local.ts:77-84); the launch phase threads
  them as state, and the chain phase reads their final values, exactly
  as the deferred callbacks do.  `origFormat` (local.ts:76) is a
  per-iteration binding and is recorded per page.
* `child_process.execFileSync` raises on failure; a raise inside a
  then-callback rejects the chain.  Its outcome is `Env.convExec`.
  The preceding `child_process.spawn` of the converter (local.ts:167)
  has no observable outcome channel in the task; it is recorded as a
  trace event only.
* Observable actions (engine spawn, stdin write, adapter consumption,
  converter spawn, blocking converter run) are recorded in a trace so
  that temporal claims can be stated.
-/

namespace LocalRender

/-- Parsed form of a file-system path: the record shape produced by
path.parse and consumed by path.format. -/
structure ParsedPath where
  dir : String
  name : String
  ext : String
deriving Repr, DecidableEq

/-- Model of path.format: dir, separator, name, extension.  The empty
string (falsy savePath) corresponds to the all-empty record. -/
def pathFormat (p : ParsedPath) : String :=
  if p.dir = "" then p.name ++ p.ext else p.dir ++ "/" ++ p.name ++ p.ext

/-- The empty path string. -/
def emptyPath : ParsedPath := ⟨"", "", ""⟩

/-- A live child-process handle: either the engine process for a page
(pushed at local.ts:128) or an inkscape converter process
(local.ts:167, never pushed). -/
inductive Handle where
  | engine (page : Nat)
  | converter (page : Nat)
deriving Repr, DecidableEq

/-- Observable actions of one task, in order of occurrence. -/
inductive Event where
  | spawnEngine (page : Nat) (args : List String)
  | writeInput (page : Nat)
  | consumeOutput (page : Nat)
  | spawnConverter (page : Nat) (args : List String)
  | execConverter (page : Nat) (args : List String)
deriving Repr, DecidableEq

/-- Error produced by the process-output adapter processWrapper:
an error text and the partial output captured so far. -/
structure AdapterError where
  error : String
  out : String
deriving Repr, DecidableEq

deriving instance DecidableEq for Except

/-- RenderError from interfaces: localized message plus partial output
(local.ts:146). -/
structure RenderError where
  error : String
  out : String
deriving Repr, DecidableEq

/-- Reason a task promise rejects. -/
inductive RejectReason where
  | configError (msg : String)
  | renderErr (e : RenderError)
  | typeError
  | execError (msg : String)
deriving Repr, DecidableEq

/-- Final state of a task promise: resolution carries the buffers
variable, which is null after a kill short-circuit (local.ts:134). -/
inductive Outcome where
  | resolve (buffers : Option (List String))
  | reject (r : RejectReason)
deriving Repr, DecidableEq

/-- The RenderTask record returned to the caller (local.ts:184-198),
extended with the event trace of its execution.  In the preflight
rejection branches (local.ts:60,64) no processes field is set. -/
structure RenderTask where
  processes : Option (List Handle)
  outcome : Outcome
  trace : List Event
deriving Repr, DecidableEq

/-- Diagram fields read by createTask.  Strings use the empty string
for absent / falsy values, as the code tests truthiness. -/
structure Diagram where
  content : String
  pageCount : Nat
  path : String
  dir : String
  title : String
deriving Repr, DecidableEq

/-- Per-resource configuration values used by createTask; the
per-resource resolution of the configuration provider is folded into
the record. -/
structure Config where
  java : String
  jar : String
  jarExists : Bool
  commandArgs : List String
  jarArgs : List String
  includepaths : List String
  diagramsRoot : Option String

/-- The environment: configuration plus all external collaborators and
the behaviour of the external processes of one run. `killed i` is the
killed flag of page i at the moment its chain link runs; `adapter i`
is the settlement of processWrapper for page i; `convExec i` is the
outcome of the blocking inkscape invocation for page i. -/
structure Env where
  config : Config
  extensionPath : String
  localize : Nat → List String → String
  isAbsolute : String → Bool
  joinWs : String → String
  delimiter : String
  basename : String → String
  addFileIndex : ParsedPath → Nat → Nat → ParsedPath
  killed : Nat → Bool
  adapter : Nat → Except AdapterError String
  convExec : Nat → Except String Unit

/-- Include-path assembly, local.ts:97-115. -/
def buildIncludePath (env : Env) (d : Diagram) : String :=
  let ip := if d.dir ≠ "" ∧ env.isAbsolute d.dir = true then d.dir else ""
  let ip := env.config.includepaths.foldl
    (fun acc fp =>
      if fp = "" then acc
      else if env.isAbsolute fp = true then acc ++ env.delimiter ++ fp
      else acc ++ env.delimiter ++ env.joinWs fp) ip
  match env.config.diagramsRoot with
  | some root => ip ++ env.delimiter ++ root
  | none => ip

/-- Engine argument vector for one page, local.ts:87-126.  `fmt` is
the value of the format variable at the time the vector is built
(after the emf mutation). -/
def engineParams (env : Env) (d : Diagram) (taskType : String)
    (fmt : Option String) (index : Nat) : List String :=
  let params := ["-Djava.awt.headless=true", "-jar", env.config.jar,
    "-pipeimageindex", toString index, "-charset", "utf-8"]
  let params := ("-Dplantuml.include.path=" ++ buildIncludePath env d) :: params
  let params := env.config.commandArgs ++ params
  let params := params ++ [taskType]
  let params := match fmt with
    | some s => if s = "" then params else params ++ ["-t" ++ s]
    | none => params
  let params := if d.path ≠ "" then params ++ ["-filename", env.basename d.path] else params
  params ++ env.config.jarArgs

/-- State threaded through the synchronous reduce: the two mutable
closure variables, the processes list, the captured per-iteration
origFormat values, and the spawn events. -/
structure LaunchState where
  format : Option String
  savePath : ParsedPath
  processes : List Handle
  origFormats : List (Option String)
  spawns : List Event
deriving Repr

/-- One iteration of the synchronous part of the reduce body,
local.ts:72-128: capture origFormat, possibly mutate format and
savePath (emf branch), build the argument vector, spawn the engine
process and push its handle. -/
def launchStep (env : Env) (d : Diagram) (taskType : String) (index : Nat)
    (s : LaunchState) : LaunchState :=
  let p := if s.format = some "emf"
    then (some "svg", ParsedPath.mk s.savePath.dir s.savePath.name ".svg")
    else (s.format, s.savePath)
  { format := p.1, savePath := p.2,
    processes := s.processes ++ [Handle.engine index],
    origFormats := s.origFormats ++ [s.format],
    spawns := s.spawns ++ [Event.spawnEngine index (engineParams env d taskType p.1 index)] }

/-- Launch-phase state after the first `k` iterations of the reduce. -/
def launchFold (env : Env) (d : Diagram) (taskType : String)
    (f : Option String) (sp : ParsedPath) (k : Nat) : LaunchState :=
  (List.range k).foldl (fun s i => launchStep env d taskType i s)
    { format := f, savePath := sp, processes := [], origFormats := [], spawns := [] }

/-- The per-page output destination, local.ts:142: empty when no save
path was given, otherwise the file-index naming helper applied to the
(final) savePath value. -/
def savePath2Of (env : Env) (fs : ParsedPath) (N i : Nat) : ParsedPath :=
  if pathFormat fs = "" then emptyPath else env.addFileIndex fs i N

/-- The inkscape argument vector, local.ts:161-165: headless flag,
export flag with the emf output path derived from the svg path, and
the svg input path. -/
def converterArgs (env : Env) (fs : ParsedPath) (N i : Nat) : List String :=
  let sp2 := savePath2Of env fs N i
  ["--without-gui",
   "--export-emf=" ++ pathFormat ⟨sp2.dir, sp2.name, ".emf"⟩,
   pathFormat sp2]

/-- Result of one chain link: either continue with the new value of
the buffers variable, or reject the chain. -/
inductive StepRes where
  | cont (bufs : Option (List String))
  | halt (r : RejectReason)

/-- One chain link, local.ts:130-180: the kill short-circuit (set
buffers to null, resolve null, continue), the stdin write, the adapter
settlement, the push onto buffers (a raise when buffers is null), and
the emf conversion branch (converter spawned, then run blocking; a
raise of the blocking call rejects the chain). -/
def chainStep (env : Env) (d : Diagram) (fs : ParsedPath) (N : Nat)
    (i : Nat) (ofmt : Option String) (bufs : Option (List String)) :
    List Event × StepRes :=
  if env.killed i then ([], .cont none)
  else
    let wr : List Event := if d.content ≠ "" then [.writeInput i] else []
    match env.adapter i with
    | .error e =>
        (wr ++ [.consumeOutput i],
         .halt (.renderErr ⟨env.localize 10 [d.title, e.error], e.out⟩))
    | .ok stdout =>
        match bufs with
        | none => (wr ++ [.consumeOutput i], .halt .typeError)
        | some bs =>
          if ofmt = some "emf" then
            let ca := converterArgs env fs N i
            match env.convExec i with
            | .error m =>
                (wr ++ [.consumeOutput i, .spawnConverter i ca, .execConverter i ca],
                 .halt (.execError m))
            | .ok _ =>
                (wr ++ [.consumeOutput i, .spawnConverter i ca, .execConverter i ca],
                 .cont (some (bs ++ [stdout])))
          else (wr ++ [.consumeOutput i], .cont (some (bs ++ [stdout])))

/-- Result of running the chain: its events, the final value of the
buffers variable, and the rejection if one occurred. -/
structure ChainOut where
  events : List Event
  buffers : Option (List String)
  rej : Option RejectReason
deriving Repr, DecidableEq

/-- The sequential promise chain over the page list (pairs of page
index and captured origFormat), threading the buffers variable.  A
rejection short-circuits every later link (local.ts:177-179). -/
def runChain (env : Env) (d : Diagram) (fs : ParsedPath) (N : Nat) :
    List (Nat × Option String) → Option (List String) → ChainOut
  | [], bufs => ⟨[], bufs, none⟩
  | (i, ofmt) :: rest, bufs =>
    match chainStep env d fs N i ofmt bufs with
    | (evs, .halt r) => ⟨evs, bufs, some r⟩
    | (evs, .cont bufs2) =>
      let r := runChain env d fs N rest bufs2
      ⟨evs ++ r.events, r.buffers, r.rej⟩

/-- The final promise wrapper, local.ts:184-198: reject with the chain
rejection, otherwise resolve the buffers variable. -/
def outcomeOf (r : ChainOut) : Outcome :=
  match r.rej with
  | some e => .reject e
  | none => .resolve r.buffers

/-- createTask, local.ts:57-199: the two preflight checks, the
synchronous launch phase over all pages, and the chained consumption
phase reading the final values of the mutated closure variables. -/
def createTask (env : Env) (d : Diagram) (taskType : String)
    (savePath : ParsedPath) (format : Option String) : RenderTask :=
  if env.config.java = "" then
    { processes := none,
      outcome := .reject (.configError (env.localize 5 [])), trace := [] }
  else if env.config.jarExists = false then
    { processes := none,
      outcome := .reject (.configError (env.localize 6 [env.extensionPath])), trace := [] }
  else
    let launch := launchFold env d taskType format savePath d.pageCount
    let pairs := (List.range d.pageCount).zip launch.origFormats
    let r := runChain env d launch.savePath d.pageCount pairs (some [])
    { processes := some launch.processes,
      outcome := outcomeOf r,
      trace := launch.spawns ++ r.events }

/-- render, local.ts:50-52. -/
def render (env : Env) (d : Diagram) (format : String) (savePath : ParsedPath) : RenderTask :=
  createTask env d "-pipe" savePath (some format)

/-- getMapData, local.ts:54-56. -/
def getMapData (env : Env) (d : Diagram) (savePath : ParsedPath) : RenderTask :=
  createTask env d "-pipemap" savePath none

/-- Value of the format closure variable after the first iteration of
the reduce (the emf branch rewrites it to svg once). -/
def fmtAfter (f : Option String) : Option String :=
  if f = some "emf" then some "svg" else f

/-- Value of the savePath closure variable after the first iteration
of the reduce. -/
def spAfter (f : Option String) (sp : ParsedPath) : ParsedPath :=
  if f = some "emf" then ⟨sp.dir, sp.name, ".svg"⟩ else sp

/-- The origFormat value captured by the closure of page `i`
(local.ts:76): the initial format for page 0, the already mutated
format for every later page. -/
def origFmt (f : Option String) (i : Nat) : Option String :=
  if i = 0 then f else fmtAfter f

/-- Final value of the savePath closure variable once the reduce over
`N` pages has finished. -/
def spFinal (f : Option String) (sp : ParsedPath) (N : Nat) : ParsedPath :=
  if N = 0 then sp else spAfter f sp

/-- The page list fed to the chain: each page index paired with the
origFormat value its closure captured. -/
def pagePairs (N : Nat) (f : Option String) : List (Nat × Option String) :=
  (List.range N).map fun i => (i, origFmt f i)

/-- The spawn events of the launch phase. -/
def launchSpawns (env : Env) (d : Diagram) (taskType : String)
    (f : Option String) : List Event :=
  (List.range d.pageCount).map fun i =>
    Event.spawnEngine i (engineParams env d taskType (fmtAfter f) i)

/-- The chain of a task that passed preflight. -/
def taskChain (env : Env) (d : Diagram) (sp : ParsedPath) (f : Option String) : ChainOut :=
  runChain env d (spFinal f sp d.pageCount) d.pageCount (pagePairs d.pageCount f) (some [])

/-- The events of one fully successful chain link. -/
def okBlock (env : Env) (d : Diagram) (fs : ParsedPath) (N : Nat) :
    Nat × Option String → List Event :=
  fun p =>
    (if d.content ≠ "" then [Event.writeInput p.1] else []) ++
    Event.consumeOutput p.1 ::
    (if p.2 = some "emf" then
      [Event.spawnConverter p.1 (converterArgs env fs N p.1),
       Event.execConverter p.1 (converterArgs env fs N p.1)]
     else [])

/-- Concatenation of per-page event blocks. -/
def blockConcat {α : Type} (f : α → List Event) : List α → List Event
  | [] => []
  | a :: l => f a ++ blockConcat f l

/-- The process-handle list after `k` launch iterations have run (the
launch loop performs exactly `pageCount` iterations; the chain phase
contains no push). -/
def processesAt (env : Env) (d : Diagram) (taskType : String)
    (f : Option String) (sp : ParsedPath) (k : Nat) : List Handle :=
  (launchFold env d taskType f sp (min k d.pageCount)).processes

/-- True unless the event is an engine spawn. -/
def notSpawnE : Event → Bool
  | .spawnEngine _ _ => false
  | _ => true

/-- Checks that every converter spawn in the trace is immediately
followed by a blocking converter invocation with the identical
argument vector. -/
def convPaired : List Event → Bool
  | [] => true
  | Event.spawnConverter i a :: Event.execConverter j b :: rest =>
      decide (i = j ∧ a = b) && convPaired rest
  | Event.spawnConverter _ _ :: _ => false
  | _ :: rest => convPaired rest

/-- True when the event is a blocking converter invocation for page `i`. -/
def isExecConvOn (i : Nat) : Event → Bool
  | .execConverter j _ => j == i
  | _ => false

/-- True when the event, if an engine spawn, requests the svg format
and not the emf format. -/
def spawnFmtOk : Event → Bool
  | .spawnEngine _ ps => ps.contains "-tsvg" && !(ps.contains "-temf")
  | _ => true

/-- Concrete configuration with a configured engine and an existing
bundle, for concrete evaluations. -/
def cfgOk : Config :=
  { java := "java", jar := "plantuml.jar", jarExists := true,
    commandArgs := [], jarArgs := [], includepaths := [], diagramsRoot := none }

/-- Concrete localization provider: message number and arguments
joined by colons. -/
def locFun : Nat → List String → String :=
  fun n args => String.intercalate ":" (toString n :: args)

/-- Concrete environment in which every page succeeds. -/
def envBase : Env :=
  { config := cfgOk, extensionPath := "/ext", localize := locFun,
    isAbsolute := fun s => s.startsWith "/", joinWs := fun s => "/ws/" ++ s,
    delimiter := ";", basename := fun s => s,
    addFileIndex := fun p i _ => ⟨p.dir, p.name ++ "-" ++ toString i, p.ext⟩,
    killed := fun _ => false, adapter := fun i => Except.ok ("s" ++ toString i),
    convExec := fun _ => Except.ok () }

/-- Concrete environment with no engine executable configured. -/
def envNoJava : Env :=
  { envBase with config := { cfgOk with java := "" } }

/-- Concrete environment whose engine bundle does not exist on disk. -/
def envNoJar : Env :=
  { envBase with config := { cfgOk with jarExists := false } }

/-- Concrete environment in which only the process of page 0 has been
killed before its turn. -/
def envKillFirst : Env :=
  { envBase with killed := fun i => i == 0 }

/-- Concrete environment in which the processes of all pages after
page 0 have been killed before their turn. -/
def envKillTail : Env :=
  { envBase with killed := fun i => 1 ≤ i }

/-- Concrete environment in which the blocking converter invocation
raises. -/
def envConvFail : Env :=
  { envBase with convExec := fun _ => Except.error "boom" }

/-- Concrete environment in which the adapter of page 1 fails. -/
def envAdaptFail : Env :=
  { envBase with
      adapter := fun i =>
        if i == 1 then Except.error ⟨"e1", "p1"⟩ else Except.ok ("s" ++ toString i) }

/-- Concrete two-page diagram. -/
def dBase : Diagram :=
  { content := "x", pageCount := 2, path := "", dir := "", title := "T" }

/-- Concrete three-page diagram. -/
def dThree : Diagram := { dBase with pageCount := 3 }

/-- Concrete one-page diagram. -/
def dOne : Diagram := { dBase with pageCount := 1 }

/-- Concrete destination path. -/
def spBase : ParsedPath := ⟨"/o", "d", ".emf"⟩

/-- The format variable never holds the emf value after the first
iteration of the reduce. -/
theorem fmtAfter_ne (f : Option String) : fmtAfter f ≠ some "emf" := by
  unfold fmtAfter
  split
  · simp
  · assumption

/-- Unfolding of the launch phase one iteration at a time. -/
theorem launchFold_succ (env : Env) (d : Diagram) (tt : String)
    (f : Option String) (sp : ParsedPath) (k : Nat) :
    launchFold env d tt f sp (k + 1) =
      launchStep env d tt k (launchFold env d tt f sp k) := by
  unfold launchFold
  rw [List.range_succ, List.foldl_append]
  rfl

/-- Closed form of the launch-phase state: after `k` iterations the
format and savePath variables hold their rewritten values, the
processes list holds the engine handle of each launched page in page
order, the captured origFormat values are the initial format for page
0 and the rewritten format for later pages, and every page was
spawned with the rewritten format. -/
theorem launchFold_spec (env : Env) (d : Diagram) (tt : String)
    (f : Option String) (sp : ParsedPath) (k : Nat) :
    launchFold env d tt f sp k =
      ⟨if k = 0 then f else fmtAfter f,
       if k = 0 then sp else spAfter f sp,
       (List.range k).map Handle.engine,
       (List.range k).map (origFmt f),
       (List.range k).map fun i => Event.spawnEngine i (engineParams env d tt (fmtAfter f) i)⟩ := by
  induction k with
  | zero => simp [launchFold]
  | succ k ih =>
    rw [launchFold_succ, ih]
    rcases Nat.eq_zero_or_pos k with hk | hk
    · subst hk
      unfold launchStep fmtAfter spAfter origFmt
      by_cases hf : f = some "emf" <;>
        simp [hf, List.range_succ]
    · have hk0 : k ≠ 0 := Nat.pos_iff_ne_zero.mp hk
      unfold launchStep
      simp [hk0, fmtAfter_ne f, List.range_succ, origFmt]

/-- Zipping a list with its own image. -/
theorem zip_self_map {α β : Type} (g : α → β) (l : List α) :
    l.zip (l.map g) = l.map fun a => (a, g a) := by
  induction l with
  | nil => rfl
  | cons a l ih =>
    simp only [List.zip] at ih ⊢
    simp [ih]

/-- Unfolding of createTask when both preflight checks pass: the task
records all engine handles, its trace is the spawn events followed by
the chain events, and its outcome is the settled chain outcome. -/
theorem createTask_spec (env : Env) (d : Diagram) (tt : String)
    (sp : ParsedPath) (f : Option String)
    (hj : env.config.java ≠ "") (hjar : env.config.jarExists = true) :
    createTask env d tt sp f =
      { processes := some ((List.range d.pageCount).map Handle.engine),
        outcome := outcomeOf (taskChain env d sp f),
        trace := launchSpawns env d tt f ++ (taskChain env d sp f).events } := by
  unfold createTask
  rw [if_neg hj, hjar]
  simp only [Bool.true_eq_false, if_neg, ite_false]
  rw [launchFold_spec]
  unfold taskChain pagePairs launchSpawns spFinal
  rcases Nat.eq_zero_or_pos d.pageCount with hN | hN
  · simp [hN, zip_self_map]
  · have hN0 : d.pageCount ≠ 0 := Nat.pos_iff_ne_zero.mp hN
    simp [hN0, zip_self_map]

/-- A captured origFormat value is emf only for page 0 of an emf
request. -/
theorem origFmt_emf (f : Option String) (i : Nat)
    (h : origFmt f i = some "emf") : i = 0 ∧ f = some "emf" := by
  unfold origFmt at h
  by_cases hi : i = 0
  · rw [if_pos hi] at h
    exact ⟨hi, h⟩
  · rw [if_neg hi] at h
    exact absurd h (fmtAfter_ne f)

/-- A fully successful chain link: not killed, adapter succeeded, and
(for an emf page) the blocking converter invocation succeeded.  The
link emits its block of events and appends the adapter output to the
buffers list. -/
theorem chainStep_ok (env : Env) (d : Diagram) (fs : ParsedPath) (N : Nat)
    (i : Nat) (ofmt : Option String) (bs : List String) (s : String)
    (hk : env.killed i = false) (ha : env.adapter i = Except.ok s)
    (hc : ofmt = some "emf" → env.convExec i = Except.ok ()) :
    chainStep env d fs N i ofmt (some bs) =
      (okBlock env d fs N (i, ofmt), StepRes.cont (some (bs ++ [s]))) := by
  unfold chainStep okBlock
  rw [hk, ha]
  by_cases hf : ofmt = some "emf"
  · rw [hc hf]
    simp [hf]
  · simp [hf]

/-- blockConcat distributes over append. -/
theorem blockConcat_append {α : Type} (f : α → List Event) (l₁ l₂ : List α) :
    blockConcat f (l₁ ++ l₂) = blockConcat f l₁ ++ blockConcat f l₂ := by
  induction l₁ with
  | nil => rfl
  | cons a l ih => simp [blockConcat, ih]

/-- Membership in a block concatenation. -/
theorem mem_blockConcat {α : Type} (f : α → List Event) (l : List α) (e : Event) :
    e ∈ blockConcat f l ↔ ∃ a ∈ l, e ∈ f a := by
  induction l with
  | nil => simp [blockConcat]
  | cons a l ih => simp [blockConcat, ih]

/-- Every event of a successful block belongs to its page. -/
theorem okBlock_shape (env : Env) (d : Diagram) (fs : ParsedPath) (N : Nat)
    (p : Nat × Option String) (e : Event) (h : e ∈ okBlock env d fs N p) :
    e = Event.writeInput p.1 ∨ e = Event.consumeOutput p.1 ∨
    e = Event.spawnConverter p.1 (converterArgs env fs N p.1) ∨
    e = Event.execConverter p.1 (converterArgs env fs N p.1) := by
  unfold okBlock at h
  by_cases hw : d.content ≠ "" <;> by_cases hf : p.2 = some "emf" <;>
    simp [hw, hf] at h <;> tauto

/-- Running the chain over a fully successful page segment: the
events of the segment are its blocks in order, every adapter output
is appended to the buffers list in page order, and the run continues
into the remaining pages. -/
theorem runChain_seg (env : Env) (d : Diagram) (fs : ParsedPath) (N : Nat)
    (out : Nat → String) :
    ∀ (ps qs : List (Nat × Option String)) (bs : List String),
      (∀ p ∈ ps, env.killed p.1 = false ∧ env.adapter p.1 = Except.ok (out p.1) ∧
        (p.2 = some "emf" → env.convExec p.1 = Except.ok ())) →
      runChain env d fs N (ps ++ qs) (some bs) =
        ⟨blockConcat (okBlock env d fs N) ps ++
           (runChain env d fs N qs (some (bs ++ ps.map fun p => out p.1))).events,
         (runChain env d fs N qs (some (bs ++ ps.map fun p => out p.1))).buffers,
         (runChain env d fs N qs (some (bs ++ ps.map fun p => out p.1))).rej⟩ := by
  intro ps
  induction ps with
  | nil =>
    intro qs bs _
    simp [blockConcat]
  | cons p ps ih =>
    intro qs bs h
    obtain ⟨i, ofmt⟩ := p
    obtain ⟨hk, ha, hc⟩ := h (i, ofmt) (List.mem_cons_self _ _)
    have hrest : ∀ p ∈ ps, env.killed p.1 = false ∧
        env.adapter p.1 = Except.ok (out p.1) ∧
        (p.2 = some "emf" → env.convExec p.1 = Except.ok ()) :=
      fun p hp => h p (List.mem_cons_of_mem _ hp)
    have hstep := chainStep_ok env d fs N i ofmt bs (out (i, ofmt).1) hk ha hc
    simp only [List.cons_append, runChain, hstep]
    simp only [List.append_eq]
    rw [ih qs (bs ++ [out i]) hrest]
    simp [blockConcat, List.append_assoc]

/-- Running the chain over a non-empty page segment whose processes
have all been killed before their turn: no events are emitted and the
buffers variable ends null, with no rejection. -/
theorem runChain_killed (env : Env) (d : Diagram) (fs : ParsedPath) (N : Nat) :
    ∀ (ps : List (Nat × Option String)) (bufs : Option (List String)),
      (∀ p ∈ ps, env.killed p.1 = true) → ps ≠ [] →
      runChain env d fs N ps bufs = ⟨[], none, none⟩ := by
  intro ps
  induction ps with
  | nil => intro bufs _ hne; exact absurd rfl hne
  | cons p ps ih =>
    intro bufs h _
    obtain ⟨i, ofmt⟩ := p
    have hk : env.killed i = true := h (i, ofmt) (List.mem_cons_self _ _)
    have hstep : chainStep env d fs N i ofmt bufs = ([], StepRes.cont none) := by
      unfold chainStep
      rw [hk]
      simp
    simp only [runChain, hstep]
    rcases List.eq_nil_or_concat ps with hps | ⟨L, b, rfl⟩
    · subst hps
      simp [runChain]
    · rw [ih none (fun p hp => h p (List.mem_cons_of_mem _ hp)) (by simp)]
      simp

/-- A chain link whose process was killed before its turn: no events,
no error, buffers voided, chain continues. -/
theorem chainStep_killed (env : Env) (d : Diagram) (fs : ParsedPath) (N : Nat)
    (i : Nat) (ofmt : Option String) (bufs : Option (List String))
    (hk : env.killed i = true) :
    chainStep env d fs N i ofmt bufs = ([], StepRes.cont none) := by
  unfold chainStep
  rw [hk]
  simp

/-- A chain link whose adapter fails: input written (when there is
content), output consumed, and the chain rejects with the localized,
title-decorated RenderError carrying the partial output. -/
theorem chainStep_err (env : Env) (d : Diagram) (fs : ParsedPath) (N : Nat)
    (i : Nat) (ofmt : Option String) (bufs : Option (List String))
    (ae : AdapterError)
    (hk : env.killed i = false) (ha : env.adapter i = Except.error ae) :
    chainStep env d fs N i ofmt bufs =
      ((if d.content ≠ "" then [Event.writeInput i] else []) ++ [Event.consumeOutput i],
       StepRes.halt (.renderErr ⟨env.localize 10 [d.title, ae.error], ae.out⟩)) := by
  unfold chainStep
  rw [hk, ha]
  simp

/-- A chain link reached with a voided buffers variable and a
successful adapter: the push onto null raises, rejecting the chain. -/
theorem chainStep_null (env : Env) (d : Diagram) (fs : ParsedPath) (N : Nat)
    (i : Nat) (ofmt : Option String) (s : String)
    (hk : env.killed i = false) (ha : env.adapter i = Except.ok s) :
    chainStep env d fs N i ofmt none =
      ((if d.content ≠ "" then [Event.writeInput i] else []) ++ [Event.consumeOutput i],
       StepRes.halt .typeError) := by
  unfold chainStep
  rw [hk, ha]
  simp

/-- An emf chain link whose blocking converter invocation raises: both
converter invocations are recorded, then the chain rejects with the
raised error. -/
theorem chainStep_emf_fail (env : Env) (d : Diagram) (fs : ParsedPath) (N : Nat)
    (i : Nat) (bs : List String) (s m : String)
    (hk : env.killed i = false) (ha : env.adapter i = Except.ok s)
    (hc : env.convExec i = Except.error m) :
    chainStep env d fs N i (some "emf") (some bs) =
      ((if d.content ≠ "" then [Event.writeInput i] else []) ++
        [Event.consumeOutput i,
         Event.spawnConverter i (converterArgs env fs N i),
         Event.execConverter i (converterArgs env fs N i)],
       StepRes.halt (.execError m)) := by
  unfold chainStep
  rw [hk, ha, hc]
  simp

/-- Unfolding of the chain at a continuing link. -/
theorem runChain_cons_cont (env : Env) (d : Diagram) (fs : ParsedPath) (N : Nat)
    (i : Nat) (ofmt : Option String) (rest : List (Nat × Option String))
    (bufs bufs2 : Option (List String)) (evs : List Event)
    (hs : chainStep env d fs N i ofmt bufs = (evs, StepRes.cont bufs2)) :
    runChain env d fs N ((i, ofmt) :: rest) bufs =
      ⟨evs ++ (runChain env d fs N rest bufs2).events,
       (runChain env d fs N rest bufs2).buffers,
       (runChain env d fs N rest bufs2).rej⟩ := by
  simp only [runChain, hs]

/-- Unfolding of the chain at a rejecting link. -/
theorem runChain_cons_halt (env : Env) (d : Diagram) (fs : ParsedPath) (N : Nat)
    (i : Nat) (ofmt : Option String) (rest : List (Nat × Option String))
    (bufs : Option (List String)) (evs : List Event) (r : RejectReason)
    (hs : chainStep env d fs N i ofmt bufs = (evs, StepRes.halt r)) :
    runChain env d fs N ((i, ofmt) :: rest) bufs = ⟨evs, bufs, some r⟩ := by
  simp only [runChain, hs]

/-- Every event a chain link emits belongs to that link: it is the
input write, the output consumption, or one of the two converter
invocations of its own page. -/
theorem chainStep_events_shape (env : Env) (d : Diagram) (fs : ParsedPath)
    (N : Nat) (i : Nat) (ofmt : Option String) (bufs : Option (List String))
    (e : Event) (h : e ∈ (chainStep env d fs N i ofmt bufs).1) :
    e = Event.writeInput i ∨ e = Event.consumeOutput i ∨
    e = Event.spawnConverter i (converterArgs env fs N i) ∨
    e = Event.execConverter i (converterArgs env fs N i) := by
  by_cases hk : env.killed i = true
  · rw [chainStep_killed env d fs N i ofmt bufs hk] at h
    simp at h
  · have hk2 : env.killed i = false := by
      revert hk
      cases env.killed i <;> simp
    rcases ha : env.adapter i with ae | s
    · rw [chainStep_err env d fs N i ofmt bufs ae hk2 ha] at h
      by_cases hw : d.content ≠ "" <;> simp [hw] at h <;> tauto
    · rcases bufs with _ | bs
      · rw [chainStep_null env d fs N i ofmt s hk2 ha] at h
        by_cases hw : d.content ≠ "" <;> simp [hw] at h <;> tauto
      · by_cases hf : ofmt = some "emf"
        · subst hf
          rcases hc : env.convExec i with m | u
          · rw [chainStep_emf_fail env d fs N i bs s m hk2 ha hc] at h
            by_cases hw : d.content ≠ "" <;> simp [hw] at h <;> tauto
          · rw [chainStep_ok env d fs N i (some "emf") bs s hk2 ha (fun _ => by rw [hc])] at h
            have := okBlock_shape env d fs N (i, some "emf") e h
            simpa using this
        · rw [chainStep_ok env d fs N i ofmt bs s hk2 ha (fun hf2 => absurd hf2 hf)] at h
          have := okBlock_shape env d fs N (i, ofmt) e h
          simpa using this

/-- Every event the chain emits belongs to one of its pages. -/
theorem runChain_events_shape (env : Env) (d : Diagram) (fs : ParsedPath) (N : Nat) :
    ∀ (ps : List (Nat × Option String)) (bufs : Option (List String)) (e : Event),
      e ∈ (runChain env d fs N ps bufs).events →
      ∃ p ∈ ps, e = Event.writeInput p.1 ∨ e = Event.consumeOutput p.1 ∨
        e = Event.spawnConverter p.1 (converterArgs env fs N p.1) ∨
        e = Event.execConverter p.1 (converterArgs env fs N p.1) := by
  intro ps
  induction ps with
  | nil =>
    intro bufs e h
    simp [runChain] at h
  | cons p ps ih =>
    intro bufs e h
    obtain ⟨i, ofmt⟩ := p
    rcases hs : chainStep env d fs N i ofmt bufs with ⟨evs, sr⟩
    have hevs : evs = (chainStep env d fs N i ofmt bufs).1 := by rw [hs]
    rcases sr with bufs2 | r
    · rw [runChain_cons_cont env d fs N i ofmt ps bufs bufs2 evs hs] at h
      rcases List.mem_append.mp h with h1 | h2
      · exact ⟨(i, ofmt), List.mem_cons_self _ _,
          chainStep_events_shape env d fs N i ofmt bufs e (hevs ▸ h1)⟩
      · obtain ⟨q, hq, hqe⟩ := ih bufs2 e h2
        exact ⟨q, List.mem_cons_of_mem _ hq, hqe⟩
    · rw [runChain_cons_halt env d fs N i ofmt ps bufs evs r hs] at h
      exact ⟨(i, ofmt), List.mem_cons_self _ _,
        chainStep_events_shape env d fs N i ofmt bufs e (hevs ▸ h)⟩

/-- convPaired skips an input write. -/
theorem convPaired_write (i : Nat) (t : List Event) :
    convPaired (Event.writeInput i :: t) = convPaired t := rfl

/-- convPaired skips an output consumption. -/
theorem convPaired_consume (i : Nat) (t : List Event) :
    convPaired (Event.consumeOutput i :: t) = convPaired t := rfl

/-- convPaired skips an engine spawn. -/
theorem convPaired_spawnE (i : Nat) (a : List String) (t : List Event) :
    convPaired (Event.spawnEngine i a :: t) = convPaired t := rfl

/-- convPaired accepts an adjacent converter pair with identical
arguments. -/
theorem convPaired_pair (i : Nat) (a : List String) (t : List Event) :
    convPaired (Event.spawnConverter i a :: Event.execConverter i a :: t) =
      convPaired t := by
  simp [convPaired]

/-- The events of any chain run pair every converter spawn with an
immediately following blocking converter invocation with the same
arguments. -/
theorem convPaired_runChain (env : Env) (d : Diagram) (fs : ParsedPath) (N : Nat) :
    ∀ (ps : List (Nat × Option String)) (bufs : Option (List String)),
      convPaired (runChain env d fs N ps bufs).events = true := by
  intro ps
  induction ps with
  | nil => intro bufs; rfl
  | cons p ps ih =>
    intro bufs
    obtain ⟨i, ofmt⟩ := p
    by_cases hk : env.killed i = true
    · rw [runChain_cons_cont env d fs N i ofmt ps bufs none []
        (chainStep_killed env d fs N i ofmt bufs hk)]
      simpa using ih none
    · have hk2 : env.killed i = false := by
        revert hk
        cases env.killed i <;> simp
      rcases ha : env.adapter i with ae | s
      · rw [runChain_cons_halt env d fs N i ofmt ps bufs _ _
          (chainStep_err env d fs N i ofmt bufs ae hk2 ha)]
        by_cases hw : d.content ≠ "" <;>
          simp [hw, convPaired_write, convPaired_consume, convPaired]
      · rcases bufs with _ | bs
        · rw [runChain_cons_halt env d fs N i ofmt ps none _ _
            (chainStep_null env d fs N i ofmt s hk2 ha)]
          by_cases hw : d.content ≠ "" <;>
            simp [hw, convPaired_write, convPaired_consume, convPaired]
        · by_cases hf : ofmt = some "emf"
          · subst hf
            rcases hc : env.convExec i with m | u
            · rw [runChain_cons_halt env d fs N i (some "emf") ps (some bs) _ _
                (chainStep_emf_fail env d fs N i bs s m hk2 ha hc)]
              by_cases hw : d.content ≠ "" <;>
                simp [hw, convPaired_write, convPaired_consume, convPaired_pair, convPaired]
            · rw [runChain_cons_cont env d fs N i (some "emf") ps (some bs) _ _
                (chainStep_ok env d fs N i (some "emf") bs s hk2 ha (fun _ => by rw [hc]))]
              unfold okBlock
              by_cases hw : d.content ≠ "" <;>
                simp [hw, convPaired_write, convPaired_consume, convPaired_pair, ih]
          · rw [runChain_cons_cont env d fs N i ofmt ps (some bs) _ _
              (chainStep_ok env d fs N i ofmt bs s hk2 ha (fun h2 => absurd h2 hf))]
            unfold okBlock
            by_cases hw : d.content ≠ "" <;>
              simp [hw, hf, convPaired_write, convPaired_consume, ih]

/-- convPaired ignores any leading engine-spawn list. -/
theorem convPaired_launch (g : Nat → List String) :
    ∀ (is : List Nat) (t : List Event),
      convPaired ((is.map fun i => Event.spawnEngine i (g i)) ++ t) = convPaired t := by
  intro is
  induction is with
  | nil => intro t; rfl
  | cons i is ih =>
    intro t
    simp only [List.map_cons, List.cons_append, convPaired_spawnE]
    exact ih t

/-- A fully successful task: preflight passed, no page killed, every
adapter succeeded, and (for an emf request) the page-0 blocking
converter invocation succeeded.  The task records every engine
handle, resolves with the adapter outputs in page order, and its
trace is the spawn events followed by the per-page blocks in page
order. -/
theorem createTask_success (env : Env) (d : Diagram) (tt : String)
    (sp : ParsedPath) (f : Option String) (out : Nat → String)
    (hj : env.config.java ≠ "") (hjar : env.config.jarExists = true)
    (hkill : ∀ i < d.pageCount, env.killed i = false)
    (hadapt : ∀ i < d.pageCount, env.adapter i = Except.ok (out i))
    (hconv : f = some "emf" → env.convExec 0 = Except.ok ()) :
    createTask env d tt sp f =
      ⟨some ((List.range d.pageCount).map Handle.engine),
       Outcome.resolve (some ((List.range d.pageCount).map out)),
       launchSpawns env d tt f ++
         blockConcat (okBlock env d (spFinal f sp d.pageCount) d.pageCount)
           (pagePairs d.pageCount f)⟩ := by
  have hall : ∀ p ∈ pagePairs d.pageCount f,
      env.killed p.1 = false ∧ env.adapter p.1 = Except.ok (out p.1) ∧
      (p.2 = some "emf" → env.convExec p.1 = Except.ok ()) := by
    intro p hp
    unfold pagePairs at hp
    obtain ⟨i, hi, rfl⟩ := List.mem_map.mp hp
    have hiN : i < d.pageCount := List.mem_range.mp hi
    refine ⟨hkill i hiN, hadapt i hiN, fun hemf => ?_⟩
    obtain ⟨hi0, hf⟩ := origFmt_emf f i hemf
    simp only [hi0]
    exact hconv hf
  have hseg := runChain_seg env d (spFinal f sp d.pageCount) d.pageCount out
      (pagePairs d.pageCount f) [] [] hall
  rw [List.append_nil] at hseg
  rw [createTask_spec env d tt sp f hj hjar]
  unfold taskChain
  rw [hseg]
  unfold outcomeOf
  simp [runChain, pagePairs, List.map_map, Function.comp]

/-- C3: if the engine executable is not configured the task rejects
immediately with the engine-missing configuration message; if the
engine bundle does not exist on disk it rejects immediately with the
bundle-missing configuration message applied to the expected install
location.  In both cases no processes field is set and the trace is
empty: zero engine processes are spawned before either rejection. -/
theorem c3_preflight_rejects (env : Env) (d : Diagram) (tt : String)
    (sp : ParsedPath) (f : Option String) :
    (env.config.java = "" →
      createTask env d tt sp f =
        ⟨none, Outcome.reject (.configError (env.localize 5 [])), []⟩) ∧
    (env.config.java ≠ "" → env.config.jarExists = false →
      createTask env d tt sp f =
        ⟨none, Outcome.reject (.configError (env.localize 6 [env.extensionPath])), []⟩) := by
  constructor
  · intro h
    unfold createTask
    rw [if_pos h]
  · intro h1 h2
    unfold createTask
    rw [if_neg h1, h2]
    simp

/-- Witness for C3 at concrete inputs: the unconfigured-engine
environment and the missing-bundle environment. -/
theorem c3_preflight_rejects_witness :
    createTask envNoJava dBase "-pipe" spBase none =
      ⟨none, Outcome.reject (.configError (envNoJava.localize 5 [])), []⟩ ∧
    createTask envNoJar dBase "-pipe" spBase none =
      ⟨none, Outcome.reject (.configError (envNoJar.localize 6 [envNoJar.extensionPath])), []⟩ :=
  ⟨(c3_preflight_rejects envNoJava dBase "-pipe" spBase none).1 rfl,
   (c3_preflight_rejects envNoJar dBase "-pipe" spBase none).2 (by decide) rfl⟩

/-- C1 is false as stated: an emf one-page render in which preflight
passes, no process is killed and the adapter succeeds, yet the task
rejects (with the error raised by the blocking converter invocation)
instead of resolving with one artifact. -/
theorem c1_counterexample :
    (createTask envConvFail dOne "-pipe" spBase (some "emf")).outcome =
      Outcome.reject (.execError "boom") ∧
    ∀ bs, (createTask envConvFail dOne "-pipe" spBase (some "emf")).outcome ≠
      Outcome.resolve bs := by
  have he : (createTask envConvFail dOne "-pipe" spBase (some "emf")).outcome =
      Outcome.reject (.execError "boom") := by decide
  refine ⟨he, fun bs h => ?_⟩
  rw [he] at h
  exact Outcome.noConfusion h

/-- C1 (amended with the converter-success condition the code
requires): when preflight passes, no process is killed, every
adapter succeeds and every blocking converter invocation that runs
succeeds, the task resolves with exactly pageCount artifacts, in
page-index order: entry i is the adapter output of page i. -/
theorem c1_ordered_artifacts (env : Env) (d : Diagram) (tt : String)
    (sp : ParsedPath) (f : Option String) (out : Nat → String)
    (hj : env.config.java ≠ "") (hjar : env.config.jarExists = true)
    (hN : 1 ≤ d.pageCount)
    (hkill : ∀ i < d.pageCount, env.killed i = false)
    (hadapt : ∀ i < d.pageCount, env.adapter i = Except.ok (out i))
    (hconv : f = some "emf" → env.convExec 0 = Except.ok ()) :
    (createTask env d tt sp f).outcome =
      Outcome.resolve (some ((List.range d.pageCount).map out)) ∧
    ((List.range d.pageCount).map out).length = d.pageCount := by
  rw [createTask_success env d tt sp f out hj hjar hkill hadapt hconv]
  simp

/-- Witness for the amended C1: three successful pages resolve with
the three adapter outputs in order. -/
theorem c1_ordered_artifacts_witness :
    (createTask envBase dThree "-pipe" spBase none).outcome =
      Outcome.resolve (some ((List.range dThree.pageCount).map fun i => "s" ++ toString i)) ∧
    ((List.range dThree.pageCount).map fun i => "s" ++ toString i).length = dThree.pageCount :=
  c1_ordered_artifacts envBase dThree "-pipe" spBase none (fun i => "s" ++ toString i)
    (by decide) rfl (by decide) (by decide) (by decide) (by decide)

/-- C7 is false as stated: two tasks over environments identical
except for the outcome of the blocking converter invocation settle
differently — the converter-success run resolves, the
converter-failure run rejects with the raised error. -/
theorem c7_counterexample :
    (createTask envBase dOne "-pipe" spBase (some "emf")).outcome =
      Outcome.resolve (some ["s0"]) ∧
    (createTask envConvFail dOne "-pipe" spBase (some "emf")).outcome =
      Outcome.reject (.execError "boom") ∧
    (createTask envBase dOne "-pipe" spBase (some "emf")).outcome ≠
      (createTask envConvFail dOne "-pipe" spBase (some "emf")).outcome := by
  decide

/-- C7 (amended): the asynchronous converter spawn has no outcome
channel at all, and on converter success the conversion stage
contributes nothing to the artifact list (the entries are exactly the
adapter outputs); but a failure of the blocking converter invocation
rejects the task with the raised error. -/
theorem c7_sync_conv_failure_rejects (env : Env) (d : Diagram) (tt : String)
    (sp : ParsedPath) (out : Nat → String)
    (hj : env.config.java ≠ "") (hjar : env.config.jarExists = true)
    (hN : 1 ≤ d.pageCount)
    (hkill : ∀ i < d.pageCount, env.killed i = false)
    (hadapt : ∀ i < d.pageCount, env.adapter i = Except.ok (out i)) :
    (env.convExec 0 = Except.ok () →
      (createTask env d tt sp (some "emf")).outcome =
        Outcome.resolve (some ((List.range d.pageCount).map out))) ∧
    (∀ m, env.convExec 0 = Except.error m →
      (createTask env d tt sp (some "emf")).outcome =
        Outcome.reject (.execError m)) := by
  constructor
  · intro hc
    rw [createTask_success env d tt sp (some "emf") out hj hjar hkill hadapt (fun _ => hc)]
  · intro m hc
    obtain ⟨n, hn⟩ : ∃ n, d.pageCount = n + 1 :=
      ⟨d.pageCount - 1, (Nat.succ_pred_eq_of_pos hN).symm⟩
    rw [createTask_spec env d tt sp (some "emf") hj hjar]
    unfold taskChain pagePairs
    have h0 : (0 : Nat) < d.pageCount := hN
    have hpairs : (List.range d.pageCount).map (fun i => (i, origFmt (some "emf") i)) =
        (0, some "emf") ::
          ((List.range n).map Nat.succ).map (fun i => (i, origFmt (some "emf") i)) := by
      rw [hn, List.range_succ_eq_map]
      simp [origFmt]
    rw [hpairs, runChain_cons_halt env d _ _ 0 (some "emf") _ (some []) _ _
      (chainStep_emf_fail env d _ _ 0 [] (out 0) m (hkill 0 h0) (hadapt 0 h0) hc)]
    rfl

/-- Witness for the amended C7: the converter-success branch at a
concrete one-page emf render. -/
theorem c7_sync_conv_failure_rejects_witness :
    (envBase.convExec 0 = Except.ok () →
      (createTask envBase dOne "-pipe" spBase (some "emf")).outcome =
        Outcome.resolve (some ((List.range dOne.pageCount).map fun i => "s" ++ toString i))) ∧
    (∀ m, envBase.convExec 0 = Except.error m →
      (createTask envBase dOne "-pipe" spBase (some "emf")).outcome =
        Outcome.reject (.execError m)) :=
  c7_sync_conv_failure_rejects envBase dOne "-pipe" spBase (fun i => "s" ++ toString i)
    (by decide) rfl (by decide) (by decide) (by decide)

/-- C8: when preflight passes, the trace is exactly the engine spawn
events of all pages, in page order (each built with the rewritten
format), followed by the chain events, which contain no engine spawn;
and the processes list holds the engine handle of every page.  All
processes are therefore started and recorded before any input write
or output consumption. -/
theorem c8_eager_spawn (env : Env) (d : Diagram) (tt : String)
    (sp : ParsedPath) (f : Option String)
    (hj : env.config.java ≠ "") (hjar : env.config.jarExists = true) :
    (createTask env d tt sp f).trace =
      launchSpawns env d tt f ++ (taskChain env d sp f).events ∧
    launchSpawns env d tt f =
      (List.range d.pageCount).map
        (fun i => Event.spawnEngine i (engineParams env d tt (fmtAfter f) i)) ∧
    (taskChain env d sp f).events.all notSpawnE = true ∧
    (createTask env d tt sp f).processes =
      some ((List.range d.pageCount).map Handle.engine) := by
  refine ⟨?_, rfl, ?_, ?_⟩
  · rw [createTask_spec env d tt sp f hj hjar]
  · rw [List.all_eq_true]
    intro e he
    unfold taskChain at he
    obtain ⟨p, _, hforms⟩ := runChain_events_shape env d (spFinal f sp d.pageCount)
      d.pageCount (pagePairs d.pageCount f) (some []) e he
    rcases hforms with h | h | h | h <;> subst h <;> rfl
  · rw [createTask_spec env d tt sp f hj hjar]

/-- Witness for C8 at a concrete two-page task. -/
theorem c8_eager_spawn_witness :
    (createTask envBase dBase "-pipe" spBase none).trace =
      launchSpawns envBase dBase "-pipe" none ++ (taskChain envBase dBase spBase none).events ∧
    launchSpawns envBase dBase "-pipe" none =
      (List.range dBase.pageCount).map
        (fun i => Event.spawnEngine i (engineParams envBase dBase "-pipe" (fmtAfter none) i)) ∧
    (taskChain envBase dBase spBase none).events.all notSpawnE = true ∧
    (createTask envBase dBase "-pipe" spBase none).processes =
      some ((List.range dBase.pageCount).map Handle.engine) :=
  c8_eager_spawn envBase dBase "-pipe" spBase none (by decide) rfl

/-- C9: the process-handle list grows append-only during the launch
loop — one engine handle per launched page and nothing after the last
page — its length never exceeds the page count, the task exposes
exactly the list built by the launch loop (the chain phase appends
nothing, in particular no converter process), and its final length is
exactly the page count. -/
theorem c9_processes_monotone (env : Env) (d : Diagram) (tt : String)
    (sp : ParsedPath) (f : Option String) (k : Nat)
    (hj : env.config.java ≠ "") (hjar : env.config.jarExists = true) :
    processesAt env d tt f sp (k + 1) =
      processesAt env d tt f sp k ++
        (if k < d.pageCount then [Handle.engine k] else []) ∧
    (processesAt env d tt f sp k).length ≤ d.pageCount ∧
    (createTask env d tt sp f).processes =
      some (processesAt env d tt f sp d.pageCount) ∧
    (processesAt env d tt f sp d.pageCount).length = d.pageCount := by
  have hp : ∀ j, processesAt env d tt f sp j =
      (List.range (min j d.pageCount)).map Handle.engine := by
    intro j
    unfold processesAt
    rw [launchFold_spec]
  refine ⟨?_, ?_, ?_, ?_⟩
  · rw [hp, hp]
    by_cases hkN : k < d.pageCount
    · rw [min_eq_left (Nat.succ_le_of_lt hkN), min_eq_left (Nat.le_of_lt hkN)]
      simp [List.range_succ, hkN]
    · have h1 : min k d.pageCount = d.pageCount := min_eq_right (Nat.le_of_not_lt hkN)
      have h2 : min (k + 1) d.pageCount = d.pageCount :=
        min_eq_right (Nat.le_succ_of_le (Nat.le_of_not_lt hkN))
      simp [h1, h2, hkN]
  · rw [hp]
    simp
  · rw [createTask_spec env d tt sp f hj hjar, hp]
    simp
  · rw [hp]
    simp

/-- Witness for C9 at a concrete two-page task and launch step 1. -/
theorem c9_processes_monotone_witness :
    processesAt envBase dBase "-pipe" none spBase 2 =
      processesAt envBase dBase "-pipe" none spBase 1 ++
        (if 1 < dBase.pageCount then [Handle.engine 1] else []) ∧
    (processesAt envBase dBase "-pipe" none spBase 1).length ≤ dBase.pageCount ∧
    (createTask envBase dBase "-pipe" spBase none).processes =
      some (processesAt envBase dBase "-pipe" none spBase dBase.pageCount) ∧
    (processesAt envBase dBase "-pipe" none spBase dBase.pageCount).length = dBase.pageCount :=
  c9_processes_monotone envBase dBase "-pipe" spBase none 1 (by decide) rfl

/-- C4: when the chain reaches page k alive (every earlier page
succeeded, no process up to k killed) and the adapter of page k
fails, the task rejects with exactly one RenderError — the localized
wrapping of the adapter error decorated with the diagram title, with
the partial output copied from the adapter error — and no input is
written to any page after k. -/
theorem c4_adapter_failure (env : Env) (d : Diagram) (tt : String)
    (sp : ParsedPath) (f : Option String) (out : Nat → String) (k : Nat)
    (ae : AdapterError)
    (hj : env.config.java ≠ "") (hjar : env.config.jarExists = true)
    (hk : k < d.pageCount)
    (hkill : ∀ i ≤ k, env.killed i = false)
    (hadapt : ∀ i < k, env.adapter i = Except.ok (out i))
    (hconv : f = some "emf" → 0 < k → env.convExec 0 = Except.ok ())
    (herr : env.adapter k = Except.error ae) :
    (createTask env d tt sp f).outcome =
      Outcome.reject (.renderErr ⟨env.localize 10 [d.title, ae.error], ae.out⟩) ∧
    ∀ j, k < j → Event.writeInput j ∉ (createTask env d tt sp f).trace := by
  obtain ⟨m, hm⟩ : ∃ m, d.pageCount = k + (m + 1) := ⟨d.pageCount - k - 1, by omega⟩
  have hsplit : pagePairs d.pageCount f =
      ((List.range k).map fun i => (i, origFmt f i)) ++
      ((k, origFmt f k) ::
        ((List.range m).map fun x => (k + (x + 1), origFmt f (k + (x + 1))))) := by
    unfold pagePairs
    rw [hm, List.range_add, List.map_append, List.range_succ_eq_map]
    simp [List.map_map, Function.comp_def, Nat.succ_eq_add_one, Nat.add_comm]
  have hallA : ∀ p ∈ (List.range k).map (fun i => (i, origFmt f i)),
      env.killed p.1 = false ∧ env.adapter p.1 = Except.ok (out p.1) ∧
      (p.2 = some "emf" → env.convExec p.1 = Except.ok ()) := by
    intro p hp
    obtain ⟨i, hi, rfl⟩ := List.mem_map.mp hp
    have hik : i < k := List.mem_range.mp hi
    refine ⟨hkill i (Nat.le_of_lt hik), hadapt i hik, fun hemf => ?_⟩
    obtain ⟨hi0, hf⟩ := origFmt_emf f i hemf
    simp only [hi0]
    exact hconv hf (hi0 ▸ hik)
  have hseg := runChain_seg env d (spFinal f sp d.pageCount) d.pageCount out
      ((List.range k).map fun i => (i, origFmt f i))
      ((k, origFmt f k) ::
        ((List.range m).map fun x => (k + (x + 1), origFmt f (k + (x + 1))))) [] hallA
  have hhalt := runChain_cons_halt env d (spFinal f sp d.pageCount) d.pageCount k
      (origFmt f k)
      ((List.range m).map fun x => (k + (x + 1), origFmt f (k + (x + 1))))
      (some ([] ++ (((List.range k).map fun i => (i, origFmt f i)).map fun p => out p.1)))
      _ _
      (chainStep_err env d (spFinal f sp d.pageCount) d.pageCount k (origFmt f k) _ ae
        (hkill k le_rfl) herr)
  have hchain : taskChain env d sp f =
      ⟨blockConcat (okBlock env d (spFinal f sp d.pageCount) d.pageCount)
          ((List.range k).map fun i => (i, origFmt f i)) ++
        ((if d.content ≠ "" then [Event.writeInput k] else []) ++ [Event.consumeOutput k]),
       some ([] ++ (((List.range k).map fun i => (i, origFmt f i)).map fun p => out p.1)),
       some (.renderErr ⟨env.localize 10 [d.title, ae.error], ae.out⟩)⟩ := by
    unfold taskChain
    rw [hsplit, hseg, hhalt]
  have htask := createTask_spec env d tt sp f hj hjar
  constructor
  · rw [htask]
    show outcomeOf (taskChain env d sp f) = _
    rw [hchain]
    rfl
  · intro j hj2 hmem
    rw [htask] at hmem
    have hmem2 : Event.writeInput j ∈
        launchSpawns env d tt f ++ (taskChain env d sp f).events := hmem
    rw [hchain] at hmem2
    rcases List.mem_append.mp hmem2 with h1 | h2
    · unfold launchSpawns at h1
      obtain ⟨i, _, he⟩ := List.mem_map.mp h1
      exact Event.noConfusion he
    · rcases List.mem_append.mp h2 with h3 | h4
      · rw [mem_blockConcat] at h3
        obtain ⟨p, hpA, hpe⟩ := h3
        obtain ⟨i, hi, rfl⟩ := List.mem_map.mp hpA
        have hik : i < k := List.mem_range.mp hi
        rcases okBlock_shape env d _ _ _ _ hpe with h | h | h | h
        · injection h with h5
          omega
        · exact Event.noConfusion h
        · exact Event.noConfusion h
        · exact Event.noConfusion h
      · rcases List.mem_append.mp h4 with h5 | h6
        · by_cases hw : d.content ≠ ""
          · rw [if_pos hw] at h5
            have h7 := List.mem_singleton.mp h5
            injection h7 with h8
            omega
          · rw [if_neg hw] at h5
            simp at h5
        · have h7 := List.mem_singleton.mp h6
          exact Event.noConfusion h7

/-- Witness for C4: page 1 of a two-page task fails in the adapter. -/
theorem c4_adapter_failure_witness :
    (createTask envAdaptFail dBase "-pipe" spBase none).outcome =
      Outcome.reject
        (.renderErr ⟨envAdaptFail.localize 10 [dBase.title, "e1"], "p1"⟩) ∧
    ∀ j, 1 < j →
      Event.writeInput j ∉ (createTask envAdaptFail dBase "-pipe" spBase none).trace :=
  c4_adapter_failure envAdaptFail dBase "-pipe" spBase none
    (fun i => "s" ++ toString i) 1 ⟨"e1", "p1"⟩
    (by decide) rfl (by decide) (by decide) (by decide) (by decide) (by decide)

/-- C5 is false as stated: page 0 killed, page 1 alive — the chain
does not stop at the killed page: it advances and writes page 1
input, and the task does not resolve with a void artifact set: it
rejects (the push of page 1 output onto the voided buffers list
raises). -/
theorem c5_counterexample :
    Event.writeInput 1 ∈ (createTask envKillFirst dBase "-pipe" emptyPath none).trace ∧
    (createTask envKillFirst dBase "-pipe" emptyPath none).outcome =
      Outcome.reject RejectReason.typeError ∧
    ∀ bs, (createTask envKillFirst dBase "-pipe" emptyPath none).outcome ≠
      Outcome.resolve bs := by
  have he : (createTask envKillFirst dBase "-pipe" emptyPath none).outcome =
      Outcome.reject RejectReason.typeError := by decide
  refine ⟨by decide, he, fun bs h => ?_⟩
  rw [he] at h
  exact Outcome.noConfusion h

/-- C5 (amended): a page killed before its turn gets no input write
and raises no error, and the accumulated artifact list is voided; and
when every page from the first killed one onward has been killed, the
task resolves with the void artifact set and no input is written to
any of those pages. -/
theorem c5_kill_voids (env : Env) (d : Diagram) (tt : String)
    (sp : ParsedPath) (f : Option String) (out : Nat → String) (k : Nat)
    (hj : env.config.java ≠ "") (hjar : env.config.jarExists = true)
    (hk : k < d.pageCount)
    (hkill : ∀ i < k, env.killed i = false)
    (hadapt : ∀ i < k, env.adapter i = Except.ok (out i))
    (hconv : f = some "emf" → 0 < k → env.convExec 0 = Except.ok ())
    (hdead : ∀ j < d.pageCount, k ≤ j → env.killed j = true) :
    (createTask env d tt sp f).outcome = Outcome.resolve none ∧
    ∀ j, k ≤ j → Event.writeInput j ∉ (createTask env d tt sp f).trace := by
  obtain ⟨m, hm⟩ : ∃ m, d.pageCount = k + (m + 1) := ⟨d.pageCount - k - 1, by omega⟩
  have hsplit : pagePairs d.pageCount f =
      ((List.range k).map fun i => (i, origFmt f i)) ++
      ((k, origFmt f k) ::
        ((List.range m).map fun x => (k + (x + 1), origFmt f (k + (x + 1))))) := by
    unfold pagePairs
    rw [hm, List.range_add, List.map_append, List.range_succ_eq_map]
    simp [List.map_map, Function.comp_def, Nat.succ_eq_add_one, Nat.add_comm]
  have hallA : ∀ p ∈ (List.range k).map (fun i => (i, origFmt f i)),
      env.killed p.1 = false ∧ env.adapter p.1 = Except.ok (out p.1) ∧
      (p.2 = some "emf" → env.convExec p.1 = Except.ok ()) := by
    intro p hp
    obtain ⟨i, hi, rfl⟩ := List.mem_map.mp hp
    have hik : i < k := List.mem_range.mp hi
    refine ⟨hkill i hik, hadapt i hik, fun hemf => ?_⟩
    obtain ⟨hi0, hf⟩ := origFmt_emf f i hemf
    simp only [hi0]
    exact hconv hf (hi0 ▸ hik)
  have hseg := runChain_seg env d (spFinal f sp d.pageCount) d.pageCount out
      ((List.range k).map fun i => (i, origFmt f i))
      ((k, origFmt f k) ::
        ((List.range m).map fun x => (k + (x + 1), origFmt f (k + (x + 1))))) [] hallA
  have hqdead : ∀ p ∈ ((k, origFmt f k) ::
      ((List.range m).map fun x => (k + (x + 1), origFmt f (k + (x + 1))))),
      env.killed p.1 = true := by
    intro p hp
    rcases List.mem_cons.mp hp with rfl | hB
    · exact hdead k hk le_rfl
    · obtain ⟨x, hx, rfl⟩ := List.mem_map.mp hB
      have hxm : x < m := List.mem_range.mp hx
      exact hdead (k + (x + 1)) (by omega) (by omega)
  have hkilled := runChain_killed env d (spFinal f sp d.pageCount) d.pageCount
      ((k, origFmt f k) ::
        ((List.range m).map fun x => (k + (x + 1), origFmt f (k + (x + 1)))))
      (some ([] ++ (((List.range k).map fun i => (i, origFmt f i)).map fun p => out p.1)))
      hqdead (by simp)
  have hchain : taskChain env d sp f =
      ⟨blockConcat (okBlock env d (spFinal f sp d.pageCount) d.pageCount)
          ((List.range k).map fun i => (i, origFmt f i)) ++ [],
       none, none⟩ := by
    unfold taskChain
    rw [hsplit, hseg, hkilled]
  have htask := createTask_spec env d tt sp f hj hjar
  constructor
  · rw [htask]
    show outcomeOf (taskChain env d sp f) = _
    rw [hchain]
    rfl
  · intro j hj2 hmem
    rw [htask] at hmem
    have hmem2 : Event.writeInput j ∈
        launchSpawns env d tt f ++ (taskChain env d sp f).events := hmem
    rw [hchain] at hmem2
    rcases List.mem_append.mp hmem2 with h1 | h2
    · unfold launchSpawns at h1
      obtain ⟨i, _, he⟩ := List.mem_map.mp h1
      exact Event.noConfusion he
    · rw [List.append_nil] at h2
      rw [mem_blockConcat] at h2
      obtain ⟨p, hpA, hpe⟩ := h2
      obtain ⟨i, hi, rfl⟩ := List.mem_map.mp hpA
      have hik : i < k := List.mem_range.mp hi
      rcases okBlock_shape env d _ _ _ _ hpe with h | h | h | h
      · injection h with h5
        omega
      · exact Event.noConfusion h
      · exact Event.noConfusion h
      · exact Event.noConfusion h

/-- Witness for the amended C5: both pages after page 0 of a two-page
task killed before their turn. -/
theorem c5_kill_voids_witness :
    (createTask envKillTail dBase "-pipe" spBase none).outcome = Outcome.resolve none ∧
    ∀ j, 1 ≤ j →
      Event.writeInput j ∉ (createTask envKillTail dBase "-pipe" spBase none).trace :=
  c5_kill_voids envKillTail dBase "-pipe" spBase none
    (fun i => "s" ++ toString i) 1
    (by decide) rfl (by decide) (by decide) (by decide) (by decide) (by decide)

/-- C2 is false as stated: with page 0 killed before its turn and
page 1 alive, page 1 input is written although page 0 output is
never consumed by the adapter. -/
theorem c2_counterexample :
    Event.writeInput 1 ∈ (createTask envKillFirst dBase "-pipemap" emptyPath none).trace ∧
    Event.consumeOutput 0 ∉ (createTask envKillFirst dBase "-pipemap" emptyPath none).trace := by
  decide

/-- C2 (amended with the no-kill condition the code requires): in a
run in which no page process is killed before its turn, page i+1
input is written only after page i output has been consumed by the
adapter (and, when page i runs the two-stage path, after page i
blocking conversion): the trace splits at the unique page-(i+1) input
write and the earlier part contains page i consumption (and its
blocking converter invocation on the two-stage path). -/
theorem c2_input_follows_consumption (env : Env) (d : Diagram) (tt : String)
    (sp : ParsedPath) (f : Option String) (out : Nat → String) (i : Nat)
    (hj : env.config.java ≠ "") (hjar : env.config.jarExists = true)
    (hi : i + 1 < d.pageCount) (hcontent : d.content ≠ "")
    (hkill : ∀ j < d.pageCount, env.killed j = false)
    (hadapt : ∀ j < d.pageCount, env.adapter j = Except.ok (out j))
    (hconv : f = some "emf" → env.convExec 0 = Except.ok ()) :
    ∃ l₁ l₂,
      (createTask env d tt sp f).trace = l₁ ++ Event.writeInput (i + 1) :: l₂ ∧
      Event.consumeOutput i ∈ l₁ ∧
      (origFmt f i = some "emf" →
        Event.execConverter i
          (converterArgs env (spFinal f sp d.pageCount) d.pageCount i) ∈ l₁) ∧
      Event.writeInput (i + 1) ∉ l₁ ∧ Event.writeInput (i + 1) ∉ l₂ := by
  obtain ⟨m, hm⟩ : ∃ m, d.pageCount = (i + 2) + m := ⟨d.pageCount - (i + 2), by omega⟩
  have hsplit : pagePairs d.pageCount f =
      ((List.range (i + 1)).map fun j => (j, origFmt f j)) ++
      ((i + 1, origFmt f (i + 1)) ::
        ((List.range m).map fun x => ((i + 2) + x, origFmt f ((i + 2) + x)))) := by
    unfold pagePairs
    rw [hm, List.range_add, List.map_append, List.range_succ]
    simp [List.map_map, Function.comp_def]
  have hsucc := createTask_success env d tt sp f out hj hjar hkill hadapt hconv
  have hblock : okBlock env d (spFinal f sp d.pageCount) d.pageCount
      (i + 1, origFmt f (i + 1)) =
      [Event.writeInput (i + 1), Event.consumeOutput (i + 1)] := by
    unfold okBlock origFmt
    simp [hcontent, fmtAfter_ne f]
  refine ⟨launchSpawns env d tt f ++
      blockConcat (okBlock env d (spFinal f sp d.pageCount) d.pageCount)
        ((List.range (i + 1)).map fun j => (j, origFmt f j)),
    Event.consumeOutput (i + 1) ::
      blockConcat (okBlock env d (spFinal f sp d.pageCount) d.pageCount)
        ((List.range m).map fun x => ((i + 2) + x, origFmt f ((i + 2) + x))),
    ?_, ?_, ?_, ?_, ?_⟩
  · rw [hsucc]
    show launchSpawns env d tt f ++
        blockConcat (okBlock env d (spFinal f sp d.pageCount) d.pageCount)
          (pagePairs d.pageCount f) = _
    rw [hsplit, blockConcat_append]
    show launchSpawns env d tt f ++
        (_ ++ (okBlock env d (spFinal f sp d.pageCount) d.pageCount
            (i + 1, origFmt f (i + 1)) ++ _)) = _
    rw [hblock]
    simp [List.append_assoc]
  · apply List.mem_append.mpr
    right
    rw [mem_blockConcat]
    refine ⟨(i, origFmt f i), List.mem_map.mpr ⟨i, List.self_mem_range_succ i, rfl⟩, ?_⟩
    unfold okBlock
    simp
  · intro hemf
    apply List.mem_append.mpr
    right
    rw [mem_blockConcat]
    refine ⟨(i, origFmt f i), List.mem_map.mpr ⟨i, List.self_mem_range_succ i, rfl⟩, ?_⟩
    unfold okBlock
    simp [hemf]
  · intro hmem
    rcases List.mem_append.mp hmem with h1 | h2
    · unfold launchSpawns at h1
      obtain ⟨j2, _, he⟩ := List.mem_map.mp h1
      exact Event.noConfusion he
    · rw [mem_blockConcat] at h2
      obtain ⟨p, hpA, hpe⟩ := h2
      obtain ⟨j2, hj2, rfl⟩ := List.mem_map.mp hpA
      have hj3 : j2 < i + 1 := List.mem_range.mp hj2
      rcases okBlock_shape env d _ _ _ _ hpe with h | h | h | h
      · injection h with h5
        omega
      · exact Event.noConfusion h
      · exact Event.noConfusion h
      · exact Event.noConfusion h
  · intro hmem
    rcases List.mem_cons.mp hmem with h1 | h2
    · exact Event.noConfusion h1
    · rw [mem_blockConcat] at h2
      obtain ⟨p, hpB, hpe⟩ := h2
      obtain ⟨x, hx, rfl⟩ := List.mem_map.mp hpB
      rcases okBlock_shape env d _ _ _ _ hpe with h | h | h | h
      · injection h with h5
        omega
      · exact Event.noConfusion h
      · exact Event.noConfusion h
      · exact Event.noConfusion h

/-- Witness for the amended C2 at page pair (0, 1) of a successful
three-page task. -/
theorem c2_input_follows_consumption_witness :
    ∃ l₁ l₂,
      (createTask envBase dThree "-pipe" spBase none).trace =
        l₁ ++ Event.writeInput (0 + 1) :: l₂ ∧
      Event.consumeOutput 0 ∈ l₁ ∧
      (origFmt none 0 = some "emf" →
        Event.execConverter 0
          (converterArgs envBase (spFinal none spBase dThree.pageCount) dThree.pageCount 0) ∈ l₁) ∧
      Event.writeInput (0 + 1) ∉ l₁ ∧ Event.writeInput (0 + 1) ∉ l₂ :=
  c2_input_follows_consumption envBase dThree "-pipe" spBase none
    (fun i => "s" ++ toString i) 0
    (by decide) rfl (by decide) (by decide) (by decide) (by decide) (by decide)

/-- C6 evaluated at the failing input (a two-page emf render in which
every page succeeds): the engine format is swapped to svg for every
page and the destination extension is rewritten to .svg before launch
— the first half of the claim — but the secondary conversion runs
only for page 0: the closure of every later page captures the
origFormat variable after it was already mutated to svg, so no
converter invocation with a page-1 output path ever happens, although
page 1 renders successfully. -/
theorem c6_second_page_never_converted :
    (createTask envBase dBase "-pipe" spBase (some "emf")).trace.all spawnFmtOk = true ∧
    (launchFold envBase dBase "-pipe" (some "emf") spBase dBase.pageCount).savePath =
      ⟨"/o", "d", ".svg"⟩ ∧
    ((createTask envBase dBase "-pipe" spBase (some "emf")).trace.any (isExecConvOn 0)) = true ∧
    ((createTask envBase dBase "-pipe" spBase (some "emf")).trace.any (isExecConvOn 1)) = false ∧
    (createTask envBase dBase "-pipe" spBase (some "emf")).outcome =
      Outcome.resolve (some ["s0", "s1"]) := by
  decide

/-- C10: every converter spawn in any task trace is immediately
followed by a blocking converter invocation with the identical
argument vector; no converter handle is ever in the task's
process-handle list; and on the two-stage path both converter
invocations for page 0 occur. -/
theorem c10_converter_double_invocation (env : Env) (d : Diagram) (tt : String)
    (sp : ParsedPath) (f : Option String) (b : String) :
    convPaired (createTask env d tt sp f).trace = true ∧
    (∀ procs, (createTask env d tt sp f).processes = some procs →
      ∀ j, Handle.converter j ∉ procs) ∧
    (env.config.java ≠ "" → env.config.jarExists = true → f = some "emf" →
      1 ≤ d.pageCount → env.killed 0 = false → env.adapter 0 = Except.ok b →
      Event.spawnConverter 0
          (converterArgs env (spFinal f sp d.pageCount) d.pageCount 0) ∈
        (createTask env d tt sp f).trace ∧
      Event.execConverter 0
          (converterArgs env (spFinal f sp d.pageCount) d.pageCount 0) ∈
        (createTask env d tt sp f).trace) := by
  have hpaired : convPaired (createTask env d tt sp f).trace = true := by
    by_cases hj : env.config.java = ""
    · unfold createTask
      rw [if_pos hj]
      simp [convPaired]
    · cases hjar : env.config.jarExists with
      | false =>
        unfold createTask
        rw [if_neg hj, hjar]
        simp [convPaired]
      | true =>
        rw [createTask_spec env d tt sp f hj hjar]
        show convPaired (launchSpawns env d tt f ++ (taskChain env d sp f).events) = true
        unfold launchSpawns
        rw [convPaired_launch]
        unfold taskChain
        exact convPaired_runChain env d _ _ _ _
  have hprocs : ∀ procs, (createTask env d tt sp f).processes = some procs →
      ∀ j, Handle.converter j ∉ procs := by
    intro procs hpr j hmem
    by_cases hj : env.config.java = ""
    · unfold createTask at hpr
      rw [if_pos hj] at hpr
      exact Option.noConfusion hpr
    · cases hjar : env.config.jarExists with
      | false =>
        unfold createTask at hpr
        rw [if_neg hj, hjar] at hpr
        simp at hpr
      | true =>
        rw [createTask_spec env d tt sp f hj hjar] at hpr
        simp only [] at hpr
        have hpr2 : ((List.range d.pageCount).map Handle.engine) = procs :=
          Option.some.inj hpr
        subst hpr2
        obtain ⟨i2, _, he⟩ := List.mem_map.mp hmem
        exact Handle.noConfusion he
  refine ⟨hpaired, hprocs, ?_⟩
  intro hj hjar hf hN hk0 ha0
  subst hf
  obtain ⟨n, hn⟩ : ∃ n, d.pageCount = n + 1 := ⟨d.pageCount - 1, by omega⟩
  have hpairs : pagePairs d.pageCount (some "emf") =
      (0, some "emf") :: ((List.range n).map Nat.succ).map
        (fun j => (j, origFmt (some "emf") j)) := by
    unfold pagePairs
    rw [hn, List.range_succ_eq_map]
    simp [origFmt]
  have hboth : Event.spawnConverter 0
      (converterArgs env (spFinal (some "emf") sp d.pageCount) d.pageCount 0) ∈
        (taskChain env d sp (some "emf")).events ∧
      Event.execConverter 0
        (converterArgs env (spFinal (some "emf") sp d.pageCount) d.pageCount 0) ∈
        (taskChain env d sp (some "emf")).events := by
    unfold taskChain
    rw [hpairs]
    rcases hc : env.convExec 0 with mm | uu
    · rw [runChain_cons_halt env d _ _ 0 (some "emf") _ (some []) _ _
        (chainStep_emf_fail env d _ _ 0 [] b mm hk0 ha0 hc)]
      constructor <;> (apply List.mem_append.mpr; right; simp)
    · rw [runChain_cons_cont env d _ _ 0 (some "emf") _ (some []) _ _
        (chainStep_ok env d _ _ 0 (some "emf") [] b hk0 ha0 (fun _ => by rw [hc]))]
      constructor <;>
        (apply List.mem_append.mpr; left; unfold okBlock; simp)
  rw [createTask_spec env d tt sp (some "emf") hj hjar]
  exact ⟨List.mem_append.mpr (Or.inr hboth.1), List.mem_append.mpr (Or.inr hboth.2)⟩

/-- Witness for C10 at a concrete two-page emf render. -/
theorem c10_converter_double_invocation_witness :
    convPaired (createTask envBase dBase "-pipe" spBase (some "emf")).trace = true ∧
    Event.spawnConverter 0
        (converterArgs envBase (spFinal (some "emf") spBase dBase.pageCount) dBase.pageCount 0) ∈
      (createTask envBase dBase "-pipe" spBase (some "emf")).trace ∧
    Event.execConverter 0
        (converterArgs envBase (spFinal (some "emf") spBase dBase.pageCount) dBase.pageCount 0) ∈
      (createTask envBase dBase "-pipe" spBase (some "emf")).trace := by
  have h := c10_converter_double_invocation envBase dBase "-pipe" spBase (some "emf") "s0"
  have h3 := h.2.2 (by decide) rfl rfl (by decide) rfl (by decide)
  exact ⟨h.1, h3.1, h3.2⟩

end LocalRender
